import Mathlib

/-!
Shallow embedding of the `impl_thirtyfour_actions` derive-macro generator
(src/src/lib.rs).  The generator is modelled as a pure function from a
`DeriveInput` (the parsed type description: type name, data shape, fields
with their attributes) to either a compile error message or the expanded
method set.  The runtime bodies of the generated methods are modelled as
functions over an abstract `Driver` oracle recording the outcome of each
underlying thirtyfour call.
-/

namespace ThirtyfourActions

/-- Locators are opaque to the generator; we model them as strings. -/
abbrev Locator := String

/-- An opaque element handle returned by the driver. -/
structure Element where
  id : Nat
deriving DecidableEq

/-- View an `Except` as a sum, to derive decidable equality. -/
def exceptToSum : Except ε α → ε ⊕ α
  | .error e => .inl e
  | .ok a => .inr a

instance {ε α : Type} [DecidableEq ε] [DecidableEq α] : DecidableEq (Except ε α) :=
  fun x y =>
    decidable_of_iff (exceptToSum x = exceptToSum y)
      (by cases x <;> cases y <;> simp [exceptToSum])

/-- One attribute on a field: either an unrelated attribute, or a
`thirtyfour_actions` attribute together with the result of
`attr.parse_args::<ElementMethods>()` (the comma-separated action names,
or a parse-error message). -/
inductive FieldAttr
  | other
  | thirtyfourActions (parseResult : Except String (List String))
deriving DecidableEq

/-- One declared field of the input type: `field.ident` (none for
unnamed/positional fields) and its attribute list. -/
structure SynField where
  ident : Option String
  attrs : List FieldAttr
deriving DecidableEq

/-- The shape of the input type's data, as `syn::Data`. -/
inductive SynData
  | structData (fields : List SynField)
  | enumData
  | unionData
deriving DecidableEq

/-- The parsed derive input: type name and data. -/
structure DeriveInput where
  ident : String
  data : SynData
deriving DecidableEq

/-- The catalog of supported actions: each arm of the `match extra.as_str()`
in the source. -/
inductive ActionKind
  | click
  | double_click
  | right_click
  | enter_keys
  | clear
  | submit
  | hover
  | drag_to
  | get_text
  | get_attribute
  | get_value
  | get_css_value
  | has_class
  | is_displayed
  | is_selected
  | is_enabled
  | exists
  | select_by_text
  | select_by_value
  | select_by_index
  | get_selected_text
  | scroll_to
  | wait_for
  | wait_until_clickable
  | take_screenshot
deriving DecidableEq

/-- Look an action name up in the catalog: the arms of the source's
`match extra.as_str()`, `none` for the wildcard arm. -/
def catalogLookup : String → Option ActionKind
  | "click" => some .click
  | "double_click" => some .double_click
  | "right_click" => some .right_click
  | "enter_keys" => some .enter_keys
  | "clear" => some .clear
  | "submit" => some .submit
  | "hover" => some .hover
  | "drag_to" => some .drag_to
  | "get_text" => some .get_text
  | "get_attribute" => some .get_attribute
  | "get_value" => some .get_value
  | "get_css_value" => some .get_css_value
  | "has_class" => some .has_class
  | "is_displayed" => some .is_displayed
  | "is_selected" => some .is_selected
  | "is_enabled" => some .is_enabled
  | "exists" => some .exists
  | "select_by_text" => some .select_by_text
  | "select_by_value" => some .select_by_value
  | "select_by_index" => some .select_by_index
  | "get_selected_text" => some .get_selected_text
  | "scroll_to" => some .scroll_to
  | "wait_for" => some .wait_for
  | "wait_until_clickable" => some .wait_until_clickable
  | "take_screenshot" => some .take_screenshot
  | _ => none

/-- The generated method's name for an action on a field, as built by each
`syn::Ident::new(&format!(...))` in the source (`drag_to` is the one
irregular pattern: `drag_<field>_to`). -/
def methodName : ActionKind → String → String
  | .click, n => "click_" ++ n
  | .double_click, n => "double_click_" ++ n
  | .right_click, n => "right_click_" ++ n
  | .enter_keys, n => "enter_keys_" ++ n
  | .clear, n => "clear_" ++ n
  | .submit, n => "submit_" ++ n
  | .hover, n => "hover_" ++ n
  | .drag_to, n => "drag_" ++ n ++ "_to"
  | .get_text, n => "get_text_" ++ n
  | .get_attribute, n => "get_attribute_" ++ n
  | .get_value, n => "get_value_" ++ n
  | .get_css_value, n => "get_css_value_" ++ n
  | .has_class, n => "has_class_" ++ n
  | .is_displayed, n => "is_displayed_" ++ n
  | .is_selected, n => "is_selected_" ++ n
  | .is_enabled, n => "is_enabled_" ++ n
  | .exists, n => "exists_" ++ n
  | .select_by_text, n => "select_by_text_" ++ n
  | .select_by_value, n => "select_by_value_" ++ n
  | .select_by_index, n => "select_by_index_" ++ n
  | .get_selected_text, n => "get_selected_text_" ++ n
  | .scroll_to, n => "scroll_to_" ++ n
  | .wait_for, n => "wait_for_" ++ n
  | .wait_until_clickable, n => "wait_until_clickable_" ++ n
  | .take_screenshot, n => "take_screenshot_" ++ n

/-- The kind of a generated method: the always-generated base query, or one
catalog action. -/
inductive MethodKind
  | query
  | action (a : ActionKind)
deriving DecidableEq

/-- One generated method: its name, the field it was generated for, and its
kind (which determines its body). -/
structure GenMethod where
  name : String
  fieldName : String
  kind : MethodKind
deriving DecidableEq

/-- Collect the requested action names of a field from its attributes, in
attribute order: the source's loop over `field.attrs` that `extend`s
`extra_methods` for every `thirtyfour_actions` attribute and returns a
compile error at the first attribute whose `parse_args` fails. -/
def collectExtras : List FieldAttr → Except String (List String)
  | [] => .ok []
  | .other :: rest => collectExtras rest
  | .thirtyfourActions (.ok ms) :: rest =>
      (collectExtras rest).map (fun tail => ms ++ tail)
  | .thirtyfourActions (.error e) :: _ =>
      .error ("Failed to parse thirtyfour_actions attribute: " ++ e)

/-- The compile-error message for an unknown action name, as formatted by
the source's wildcard arm. -/
def unsupportedMsg (ex n : String) : String :=
  "Unsupported thirtyfour_actions method: '" ++ ex ++ "' for field " ++ n

/-- Look every requested action name up in the catalog in order, failing at
the first name the catalog does not contain: the source's
`for extra in extra_methods` loop. -/
def lookupAll (n : String) : List String → Except String (List ActionKind)
  | [] => .ok []
  | ex :: rest =>
      match catalogLookup ex with
      | some a => (lookupAll n rest).map (fun tail => a :: tail)
      | none => .error (unsupportedMsg ex n)

/-- The methods generated for one field: nothing for an unnamed field
(`if let Some(ref field_ident)` skips it silently); for a named field the
base `query_<field>` method followed by one method per requested action,
or the first compile error met while parsing attributes / looking actions
up. -/
def processField (f : SynField) : Except String (List GenMethod) :=
  match f.ident with
  | none => .ok []
  | some n =>
      match collectExtras f.attrs with
      | .error e => .error e
      | .ok extras =>
          match lookupAll n extras with
          | .error e => .error e
          | .ok acts =>
              .ok (⟨"query_" ++ n, n, .query⟩ ::
                acts.map (fun a => ⟨methodName a n, n, .action a⟩))

/-- Process the fields in declaration order, aggregating their generated
methods; any field's compile error aborts the whole generation (the source
`return`s the error token stream, discarding all accumulated methods). -/
def processFields : List SynField → Except String (List GenMethod)
  | [] => .ok []
  | f :: rest =>
      match processField f with
      | .error e => .error e
      | .ok ms => (processFields rest).map (fun tail => ms ++ tail)

/-- The expanded output: `impl <struct_name> { <methods> }`. -/
structure Expanded where
  structName : String
  methods : List GenMethod
deriving DecidableEq

/-- The whole derive macro `impl_thirtyfour_actions`: structs are processed
field by field; any non-struct input is rejected with the fixed message. -/
def impl_thirtyfour_actions (input : DeriveInput) : Except String Expanded :=
  match input.data with
  | .structData fields =>
      (processFields fields).map (fun ms => ⟨input.ident, ms⟩)
  | _ => .error "ImplThirtyfourActions can only be derived for structs"

/-- The driver oracle for the runtime semantics of the generated methods:
the outcome of each underlying thirtyfour call the generated bodies can
make (`Except` error = the driver call was rejected). -/
structure Driver where
  query : Locator → Except String (Option Element)
  existsQuery : Locator → Except String Bool
  click : Element → Except String Unit
  doubleClick : Element → Except String Unit
  rightClick : Element → Except String Unit
  sendKeys : Element → String → Except String Unit
  clear : Element → Except String Unit
  submit : Element → Except String Unit
  hover : Element → Except String Unit
  dragTo : Element → Element → Except String Unit
  text : Element → Except String String
  attr : Element → String → Except String (Option String)
  cssValue : Element → String → Except String String
  isDisplayed : Element → Except String Bool
  isSelected : Element → Except String Bool
  isEnabled : Element → Except String Bool
  selectByText : Element → String → Except String Unit
  selectByValue : Element → String → Except String Unit
  selectByIndex : Element → Nat → Except String Unit
  firstSelectedOption : Element → Except String Element
  execute : String → List Element → Except String Unit
  waitVisibleFirst : Locator → Nat → Except String Element
  screenshotBase64 : Element → Except String String

/-- The body of the always-generated `query_<field>` method:
`Ok(Some(e))` gives the element, `Ok(None)` gives `None`, and a query
error is logged and also gives `None`. -/
def query_method (loc : Locator) (d : Driver) : Option Element :=
  match d.query loc with
  | .ok (some e) => some e
  | .ok none => none
  | .error _ => none

/-- The extra arguments the various generated methods take (keys text,
attribute name, CSS property, class name, select text/value/index, drag
target, wait timeout); each method reads only the ones it needs. -/
structure CallArgs where
  keys : String
  attrName : String
  cssProp : String
  className : String
  selText : String
  selValue : String
  selIndex : Nat
  target : Element
  timeoutSecs : Nat
deriving DecidableEq

/-- The result of running one generated method: the typed success values
of the various bodies, or an `anyhow` failure message. -/
inductive Outcome
  | unitOk
  | strOk (s : String)
  | optStrOk (o : Option String)
  | boolOk (b : Bool)
  | elemOk (e : Element)
  | failure (msg : String)
deriving DecidableEq

/-- The "element not found" failure message shared by all methods that
delegate to the base query. -/
def notFoundMsg (n : String) : String := "Element " ++ n ++ " not found"

/-- Rust's `split_whitespace().collect().contains(&class_name)` on a class
attribute string. -/
def classListContains (classes className : String) : Bool :=
  ((classes.split Char.isWhitespace).filter (fun s => s ≠ "")).contains className

/-- The runtime body of each generated action method, translated arm by
arm from the `quote!` templates in the source: `n` is the field name
baked into the generated messages, `loc` the field's locator value,
`args` the extra call arguments, `d` the driver. -/
def runAction (a : ActionKind) (n : String) (loc : Locator) (args : CallArgs)
    (d : Driver) : Outcome :=
  match a with
  | .click =>
      match query_method loc d with
      | some el =>
          match d.click el with
          | .ok _ => .unitOk
          | .error e => .failure ("Failed to click " ++ n ++ ": " ++ e)
      | none => .failure (notFoundMsg n)
  | .double_click =>
      match query_method loc d with
      | some el =>
          match d.doubleClick el with
          | .ok _ => .unitOk
          | .error e => .failure ("Failed to double-click " ++ n ++ ": " ++ e)
      | none => .failure (notFoundMsg n)
  | .right_click =>
      match query_method loc d with
      | some el =>
          match d.rightClick el with
          | .ok _ => .unitOk
          | .error e => .failure ("Failed to right-click " ++ n ++ ": " ++ e)
      | none => .failure (notFoundMsg n)
  | .enter_keys =>
      match query_method loc d with
      | some el =>
          match d.sendKeys el args.keys with
          | .ok _ => .unitOk
          | .error e => .failure ("Failed to send keys to " ++ n ++ ": " ++ e)
      | none => .failure (notFoundMsg n)
  | .clear =>
      match query_method loc d with
      | some el =>
          match d.clear el with
          | .ok _ => .unitOk
          | .error e => .failure ("Failed to clear " ++ n ++ ": " ++ e)
      | none => .failure (notFoundMsg n)
  | .submit =>
      match query_method loc d with
      | some el =>
          match d.submit el with
          | .ok _ => .unitOk
          | .error e => .failure ("Failed to submit form " ++ n ++ ": " ++ e)
      | none => .failure (notFoundMsg n)
  | .hover =>
      match query_method loc d with
      | some el =>
          match d.hover el with
          | .ok _ => .unitOk
          | .error e => .failure ("Failed to hover over " ++ n ++ ": " ++ e)
      | none => .failure (notFoundMsg n)
  | .drag_to =>
      match query_method loc d with
      | some el =>
          match d.dragTo el args.target with
          | .ok _ => .unitOk
          | .error e => .failure ("Failed to drag " ++ n ++ " to target: " ++ e)
      | none => .failure (notFoundMsg n)
  | .get_text =>
      match query_method loc d with
      | some el =>
          match d.text el with
          | .ok t => .strOk t
          | .error e => .failure ("Failed to get text from " ++ n ++ ": " ++ e)
      | none => .failure (notFoundMsg n)
  | .get_attribute =>
      match query_method loc d with
      | some el =>
          match d.attr el args.attrName with
          | .ok o => .optStrOk o
          | .error e =>
              .failure ("Failed to get attribute '" ++ args.attrName ++
                "' from " ++ n ++ ": " ++ e)
      | none => .failure (notFoundMsg n)
  | .get_value =>
      match query_method loc d with
      | some el =>
          match d.attr el "value" with
          | .ok o => .optStrOk o
          | .error e => .failure ("Failed to get value from " ++ n ++ ": " ++ e)
      | none => .failure (notFoundMsg n)
  | .get_css_value =>
      match query_method loc d with
      | some el =>
          match d.cssValue el args.cssProp with
          | .ok s => .strOk s
          | .error e =>
              .failure ("Failed to get CSS property '" ++ args.cssProp ++
                "' from " ++ n ++ ": " ++ e)
      | none => .failure (notFoundMsg n)
  | .has_class =>
      match query_method loc d with
      | some el =>
          match d.attr el "class" with
          | .ok (some classes) => .boolOk (classListContains classes args.className)
          | .ok none => .boolOk false
          | .error e =>
              .failure ("Failed to get class attribute from " ++ n ++ ": " ++ e)
      | none => .failure (notFoundMsg n)
  | .is_displayed =>
      match query_method loc d with
      | some el =>
          match d.isDisplayed el with
          | .ok b => .boolOk b
          | .error e =>
              .failure ("Failed to check if " ++ n ++ " is displayed: " ++ e)
      | none => .failure (notFoundMsg n)
  | .is_selected =>
      match query_method loc d with
      | some el =>
          match d.isSelected el with
          | .ok b => .boolOk b
          | .error e =>
              .failure ("Failed to check if " ++ n ++ " is selected: " ++ e)
      | none => .failure (notFoundMsg n)
  | .is_enabled =>
      match query_method loc d with
      | some el =>
          match d.isEnabled el with
          | .ok b => .boolOk b
          | .error e =>
              .failure ("Failed to check if " ++ n ++ " is enabled: " ++ e)
      | none => .failure (notFoundMsg n)
  | .exists =>
      match d.existsQuery loc with
      | .ok b => .boolOk b
      | .error _ => .boolOk false
  | .select_by_text =>
      match query_method loc d with
      | some el =>
          match d.selectByText el args.selText with
          | .ok _ => .unitOk
          | .error e =>
              .failure ("Failed to select text '" ++ args.selText ++ "' in " ++
                n ++ ": " ++ e)
      | none => .failure (notFoundMsg n)
  | .select_by_value =>
      match query_method loc d with
      | some el =>
          match d.selectByValue el args.selValue with
          | .ok _ => .unitOk
          | .error e =>
              .failure ("Failed to select value '" ++ args.selValue ++ "' in " ++
                n ++ ": " ++ e)
      | none => .failure (notFoundMsg n)
  | .select_by_index =>
      match query_method loc d with
      | some el =>
          match d.selectByIndex el args.selIndex with
          | .ok _ => .unitOk
          | .error e =>
              .failure ("Failed to select index " ++ toString args.selIndex ++
                " in " ++ n ++ ": " ++ e)
      | none => .failure (notFoundMsg n)
  | .get_selected_text =>
      match query_method loc d with
      | some el =>
          match d.firstSelectedOption el with
          | .ok opt =>
              match d.text opt with
              | .ok t => .strOk t
              | .error e =>
                  .failure ("Failed to get text of selected option in " ++
                    n ++ ": " ++ e)
          | .error e =>
              .failure ("Failed to get selected option in " ++ n ++ ": " ++ e)
      | none => .failure (notFoundMsg n)
  | .scroll_to =>
      match query_method loc d with
      | some el =>
          match d.execute "arguments[0].scrollIntoView();" [el] with
          | .ok _ => .unitOk
          | .error e => .failure ("Failed to scroll to " ++ n ++ ": " ++ e)
      | none => .failure (notFoundMsg n)
  | .wait_for =>
      match d.waitVisibleFirst loc args.timeoutSecs with
      | .ok el => .elemOk el
      | .error e =>
          .failure ("Timed out waiting for " ++ n ++ " to be visible: " ++ e)
  | .wait_until_clickable =>
      match d.waitVisibleFirst loc args.timeoutSecs with
      | .ok el =>
          match d.isEnabled el with
          | .ok true => .elemOk el
          | .ok false =>
              .failure ("Element " ++ n ++ " is not clickable (disabled)")
          | .error e =>
              .failure ("Failed to check if " ++ n ++ " is enabled: " ++ e)
      | .error e =>
          .failure ("Timed out waiting for " ++ n ++ " to be visible: " ++ e)
  | .take_screenshot =>
      match query_method loc d with
      | some el =>
          match d.screenshotBase64 el with
          | .ok s => .strOk s
          | .error e =>
              .failure ("Failed to take screenshot of " ++ n ++ ": " ++ e)
      | none => .failure (notFoundMsg n)

/-- Whether an action's generated body delegates to the base query method
(all of them except `exists` and the two wait methods, which query the
driver directly). -/
def delegatesToQuery : ActionKind → Bool
  | .exists => false
  | .wait_for => false
  | .wait_until_clickable => false
  | _ => true

/-- Render the generated method names, one per line: a byte-level view of
the output used to state reproducibility. -/
def renderMethods : List GenMethod → String
  | [] => ""
  | m :: rest => m.name ++ "\n" ++ renderMethods rest

/-- Render the whole generation outcome as text. -/
def renderOutput : Except String Expanded → String
  | .error e => "error: " ++ e
  | .ok out => "impl " ++ out.structName ++ "\n" ++ renderMethods out.methods

/-- The requested action names of an attribute list, ignoring unrelated
attributes and skipping parse errors: agrees with `collectExtras` whenever
every `thirtyfour_actions` attribute parses. -/
def extrasOf : List FieldAttr → List String
  | [] => []
  | .thirtyfourActions (.ok ms) :: rest => ms ++ extrasOf rest
  | _ :: rest => extrasOf rest

/-- Every `thirtyfour_actions` attribute in the list parses successfully. -/
def attrsParseOk : List FieldAttr → Bool
  | [] => true
  | .thirtyfourActions (.error _) :: _ => false
  | _ :: rest => attrsParseOk rest

/-- Every action name in the list is in the catalog. -/
def allKnown (es : List String) : Bool :=
  es.all (fun ex => (catalogLookup ex).isSome)

/-- Modelled from the spec: the method set §4.3 prescribes for one field —
nothing for an unnamed field, otherwise the base query operation first,
then one operation per requested action in declared order, named from the
(field name, action name) pair.  Used to compare the generator's output
with the spec's ordering contract. -/
def specFieldMethods (f : SynField) : List GenMethod :=
  match f.ident with
  | none => []
  | some n =>
      ⟨"query_" ++ n, n, .query⟩ ::
        (extrasOf f.attrs).filterMap (fun ex =>
          (catalogLookup ex).map (fun a => ⟨methodName a n, n, .action a⟩))

/-- Modelled from the spec: all fields' prescribed methods in field
declaration order. -/
def specMethods (fields : List SynField) : List GenMethod :=
  (fields.map specFieldMethods).flatten

/-- Boolean test: `pat` is a prefix of `l`. -/
def charsHavePrefix : List Char → List Char → Bool
  | [], _ => true
  | _ :: _, [] => false
  | a :: as, b :: bs => a == b && charsHavePrefix as bs

/-- Boolean test: `pat` occurs contiguously inside `l`. -/
def charsContain (pat : List Char) : List Char → Bool
  | [] => charsHavePrefix pat []
  | c :: rest => charsHavePrefix pat (c :: rest) || charsContain pat rest

/-- `pat` occurs as a substring of `s`. -/
def strContains (s pat : String) : Bool := charsContain pat.data s.data

/-- Shorthand for a successfully parsed `thirtyfour_actions` attribute. -/
def tfaOk (ms : List String) : FieldAttr := .thirtyfourActions (.ok ms)

/-- The spec's scenario input: a `LoginPage` type with field `loginButton`
requesting `[click]`. -/
def loginButtonInput : DeriveInput :=
  ⟨"LoginPage", .structData [⟨some "loginButton", [tfaOk ["click"]]⟩]⟩

/-- The spec's scenario input: a type with field `search` requesting the
unknown action `bogus_action`. -/
def bogusInput : DeriveInput :=
  ⟨"SearchPage", .structData [⟨some "search", [tfaOk ["bogus_action"]]⟩]⟩

/-- A field requesting `click` once. -/
def onceInput : DeriveInput :=
  ⟨"Page", .structData [⟨some "btn", [tfaOk ["click"]]⟩]⟩

/-- The same field requesting `click` twice. -/
def twiceInput : DeriveInput :=
  ⟨"Page", .structData [⟨some "btn", [tfaOk ["click", "click"]]⟩]⟩

/-- A tuple struct: one positional field with no identifier. -/
def tupleStructInput : DeriveInput := ⟨"Wrapper", .structData [⟨none, []⟩]⟩

/-- An enum input. -/
def enumInput : DeriveInput := ⟨"MyEnum", .enumData⟩

/-- An element handle for concrete runs. -/
def sampleElement : Element := ⟨0⟩

/-- Concrete extra call arguments for witness runs. -/
def sampleArgs : CallArgs := ⟨"", "", "", "", "", "", 0, ⟨0⟩, 0⟩

/-- A driver on which every call succeeds and the query finds `el`. -/
def okDriver (el : Element) : Driver where
  query := fun _ => .ok (some el)
  existsQuery := fun _ => .ok true
  click := fun _ => .ok ()
  doubleClick := fun _ => .ok ()
  rightClick := fun _ => .ok ()
  sendKeys := fun _ _ => .ok ()
  clear := fun _ => .ok ()
  submit := fun _ => .ok ()
  hover := fun _ => .ok ()
  dragTo := fun _ _ => .ok ()
  text := fun _ => .ok ""
  attr := fun _ _ => .ok none
  cssValue := fun _ _ => .ok ""
  isDisplayed := fun _ => .ok true
  isSelected := fun _ => .ok true
  isEnabled := fun _ => .ok true
  selectByText := fun _ _ => .ok ()
  selectByValue := fun _ _ => .ok ()
  selectByIndex := fun _ _ => .ok ()
  firstSelectedOption := fun _ => .ok el
  execute := fun _ _ => .ok ()
  waitVisibleFirst := fun _ _ => .ok el
  screenshotBase64 := fun _ => .ok ""

/-- A driver on which the query finds `el` but every other call is
rejected with the message `e`. -/
def allFailDriver (el : Element) (e : String) : Driver where
  query := fun _ => .ok (some el)
  existsQuery := fun _ => .error e
  click := fun _ => .error e
  doubleClick := fun _ => .error e
  rightClick := fun _ => .error e
  sendKeys := fun _ _ => .error e
  clear := fun _ => .error e
  submit := fun _ => .error e
  hover := fun _ => .error e
  dragTo := fun _ _ => .error e
  text := fun _ => .error e
  attr := fun _ _ => .error e
  cssValue := fun _ _ => .error e
  isDisplayed := fun _ => .error e
  isSelected := fun _ => .error e
  isEnabled := fun _ => .error e
  selectByText := fun _ _ => .error e
  selectByValue := fun _ _ => .error e
  selectByIndex := fun _ _ => .error e
  firstSelectedOption := fun _ => .error e
  execute := fun _ _ => .error e
  waitVisibleFirst := fun _ _ => .error e
  screenshotBase64 := fun _ => .error e

/-- A driver on which no element matches the query. -/
def absentDriver : Driver :=
  { okDriver ⟨0⟩ with query := fun _ => .ok none, existsQuery := fun _ => .ok false }

/-- A driver on which the underlying query itself errors. -/
def queryErrDriver (e : String) : Driver :=
  { okDriver ⟨0⟩ with query := fun _ => .error e, existsQuery := fun _ => .error e }

theorem strData_append (a b : String) : (a ++ b).data = a.data ++ b.data := rfl

theorem charsHavePrefix_refl_append (p t : List Char) :
    charsHavePrefix p (p ++ t) = true := by
  induction p with
  | nil => rfl
  | cons a as ih => simp [charsHavePrefix, ih]

theorem charsContain_of_front (p s : List Char) (h : charsHavePrefix p s = true) :
    charsContain p s = true := by
  cases s with
  | nil => simpa [charsContain] using h
  | cons c r => simp [charsContain, h]

theorem charsContain_append_left (x : List Char) {p s : List Char}
    (h : charsContain p s = true) : charsContain p (x ++ s) = true := by
  induction x with
  | nil => simpa using h
  | cons c cs ih => simp [charsContain, ih]

theorem charsContain_self (p : List Char) : charsContain p p = true := by
  have h := charsHavePrefix_refl_append p []
  rw [List.append_nil] at h
  exact charsContain_of_front p p h

theorem strContains_suffix (x s : String) : strContains (x ++ s) s = true := by
  show charsContain s.data (x ++ s).data = true
  rw [strData_append]
  exact charsContain_append_left x.data (charsContain_self s.data)

theorem wrapContains (X n Y e : String) :
    strContains (X ++ n ++ Y ++ e) n = true ∧
    strContains (X ++ n ++ Y ++ e) e = true := by
  constructor
  · show charsContain n.data (X ++ n ++ Y ++ e).data = true
    simp only [strData_append, List.append_assoc]
    exact charsContain_append_left X.data
      (charsContain_of_front _ _ (charsHavePrefix_refl_append n.data _))
  · exact strContains_suffix (X ++ n ++ Y) e

theorem notFound_names_field (n : String) :
    strContains (notFoundMsg n) (n ++ " not found") = true := by
  show charsContain (n ++ " not found").data (notFoundMsg n).data = true
  simp only [notFoundMsg, strData_append, List.append_assoc]
  exact charsContain_append_left _ (charsContain_self _)

theorem collectExtras_ok : ∀ attrs, attrsParseOk attrs = true →
    collectExtras attrs = .ok (extrasOf attrs)
  | [], _ => rfl
  | .other :: rest, h => by
      simp only [collectExtras, extrasOf,
        collectExtras_ok rest (by simpa [attrsParseOk] using h)]
  | .thirtyfourActions (.ok ms) :: rest, h => by
      simp only [collectExtras, extrasOf,
        collectExtras_ok rest (by simpa [attrsParseOk] using h), Except.map]
  | .thirtyfourActions (.error e) :: rest, h => by
      simp [attrsParseOk] at h

theorem lookupAll_ok (n : String) : ∀ es, allKnown es = true →
    lookupAll n es = .ok (es.filterMap catalogLookup)
  | [], _ => rfl
  | ex :: rest, h => by
      have h' := h
      simp only [allKnown, List.all_cons, Bool.and_eq_true] at h'
      cases hc : catalogLookup ex with
      | none => rw [hc] at h'; simp at h'
      | some a =>
          simp only [lookupAll, hc, lookupAll_ok n rest (by
            simpa [allKnown] using h'.2), Except.map, List.filterMap_cons]

theorem lookupAll_err (n : String) : ∀ es,
    (∃ ex ∈ es, catalogLookup ex = none) →
    ∃ ex, ex ∈ es ∧ catalogLookup ex = none ∧
      lookupAll n es = .error (unsupportedMsg ex n)
  | [], h => absurd h (by simp)
  | ex :: rest, h => by
      cases hc : catalogLookup ex with
      | none =>
          exact ⟨ex, List.mem_cons_self ex rest, hc, by simp [lookupAll, hc]⟩
      | some a =>
          obtain ⟨ex', hmem, hnone⟩ := h
          rcases List.mem_cons.mp hmem with rfl | hmem'
          · rw [hc] at hnone; cases hnone
          · obtain ⟨ex'', hmem'', hnone'', heq⟩ := lookupAll_err n rest ⟨ex', hmem', hnone⟩
            exact ⟨ex'', List.mem_cons_of_mem ex hmem'', hnone'',
              by simp [lookupAll, hc, heq, Except.map]⟩

theorem processField_valid (f : SynField) (h1 : attrsParseOk f.attrs = true)
    (h2 : allKnown (extrasOf f.attrs) = true) :
    processField f = .ok (specFieldMethods f) := by
  obtain ⟨oid, attrs⟩ := f
  cases oid with
  | none => rfl
  | some n =>
      simp only [processField, specFieldMethods, collectExtras_ok attrs h1,
        lookupAll_ok n _ h2, List.map_filterMap]

theorem processFields_valid : ∀ fields : List SynField,
    (∀ f ∈ fields, attrsParseOk f.attrs = true ∧ allKnown (extrasOf f.attrs) = true) →
    processFields fields = .ok (specMethods fields)
  | [], _ => rfl
  | f :: rest, h => by
      have hf := h f (List.mem_cons_self f rest)
      simp only [processFields, processField_valid f hf.1 hf.2,
        processFields_valid rest (fun g hg => h g (List.mem_cons_of_mem f hg)),
        Except.map, specMethods, List.map_cons, List.flatten_cons]

theorem processFields_unnamed : ∀ fields : List SynField,
    (∀ f ∈ fields, f.ident = none) → processFields fields = .ok []
  | [], _ => rfl
  | f :: rest, h => by
      have hf : f.ident = none := h f (List.mem_cons_self f rest)
      simp only [processFields, processField, hf,
        processFields_unnamed rest (fun g hg => h g (List.mem_cons_of_mem f hg)),
        Except.map, List.nil_append]

theorem processField_fieldName (f : SynField) (l : List GenMethod)
    (h : processField f = .ok l) : ∀ m ∈ l, f.ident = some m.fieldName := by
  obtain ⟨oid, attrs⟩ := f
  cases oid with
  | none =>
      simp only [processField] at h
      cases h
      simp
  | some n =>
      simp only [processField] at h
      split at h
      · cases h
      · split at h
        · cases h
        · cases h
          intro m hm
          rcases List.mem_cons.mp hm with rfl | hm'
          · rfl
          · obtain ⟨a, _, rfl⟩ := List.mem_map.mp hm'
            rfl

theorem processFields_fieldName : ∀ (fields : List SynField) (ms : List GenMethod),
    processFields fields = .ok ms →
    ∀ m ∈ ms, m.fieldName ∈ fields.filterMap SynField.ident
  | [], ms, h => by cases h; simp
  | f :: rest, ms, h => by
      simp only [processFields] at h
      cases hpf : processField f with
      | error e => rw [hpf] at h; cases h
      | ok l =>
          rw [hpf] at h
          cases hrest : processFields rest with
          | error e => rw [hrest] at h; cases h
          | ok tail =>
              rw [hrest] at h
              simp only [Except.map] at h
              cases h
              intro m hm
              rcases List.mem_append.mp hm with hml | hmt
              · exact List.mem_filterMap.mpr
                  ⟨f, List.mem_cons_self f rest,
                    processField_fieldName f l hpf m hml⟩
              · obtain ⟨g, hg, hid⟩ := List.mem_filterMap.mp
                  (processFields_fieldName rest tail hrest m hmt)
                exact List.mem_filterMap.mpr ⟨g, List.mem_cons_of_mem f hg, hid⟩

theorem processField_filter_query (f : SynField) (l : List GenMethod) (n : String)
    (h : processField f = .ok l) :
    l.filter (fun m => m.fieldName == n && m.kind == MethodKind.query) =
      if f.ident = some n then [⟨"query_" ++ n, n, .query⟩] else [] := by
  obtain ⟨oid, attrs⟩ := f
  cases oid with
  | none =>
      simp only [processField] at h
      cases h
      simp
  | some n' =>
      simp only [processField] at h
      split at h
      · cases h
      · split at h
        · cases h
        · cases h
          rename_i extras hce acts hla
          have htail : (acts.map (fun a =>
              (⟨methodName a n', n', .action a⟩ : GenMethod))).filter
              (fun m => m.fieldName == n && m.kind == MethodKind.query) = [] := by
            rw [List.filter_eq_nil_iff]
            intro m hm
            obtain ⟨a, _, rfl⟩ := List.mem_map.mp hm
            simp
          by_cases hn : n' = n
          · subst hn
            simp [List.filter_cons, htail]
          · simp [List.filter_cons, htail, hn]

theorem processField_unknown (f : SynField) (n : String) (hid : f.ident = some n)
    (hp : attrsParseOk f.attrs = true)
    (hbad : ∃ ex ∈ extrasOf f.attrs, catalogLookup ex = none) :
    ∃ ex, ex ∈ extrasOf f.attrs ∧ catalogLookup ex = none ∧
      processField f = .error (unsupportedMsg ex n) := by
  obtain ⟨ex, hmem, hnone, heq⟩ := lookupAll_err n (extrasOf f.attrs) hbad
  refine ⟨ex, hmem, hnone, ?_⟩
  obtain ⟨oid, attrs⟩ := f
  simp only [SynField.ident] at hid
  subst hid
  simp only [processField, collectExtras_ok attrs hp, heq]

theorem processFields_unknown : ∀ fields : List SynField,
    (∀ f ∈ fields, attrsParseOk f.attrs = true) →
    (∃ f ∈ fields, ∃ nn, f.ident = some nn ∧
      ∃ ex ∈ extrasOf f.attrs, catalogLookup ex = none) →
    ∃ f ∈ fields, ∃ nn ex, f.ident = some nn ∧ ex ∈ extrasOf f.attrs ∧
      catalogLookup ex = none ∧
      processFields fields = .error (unsupportedMsg ex nn)
  | [], _, hbad => absurd hbad (by simp)
  | g :: rest, hp, hbad => by
      by_cases hg : ∃ nn, g.ident = some nn ∧
          ∃ ex ∈ extrasOf g.attrs, catalogLookup ex = none
      · obtain ⟨nn, hid, hex⟩ := hg
        obtain ⟨ex, hmem, hnone, heq⟩ :=
          processField_unknown g nn hid (hp g (List.mem_cons_self g rest)) hex
        exact ⟨g, List.mem_cons_self g rest, nn, ex, hid, hmem, hnone,
          by simp only [processFields, heq]⟩
      · have hrest : ∃ f ∈ rest, ∃ nn, f.ident = some nn ∧
            ∃ ex ∈ extrasOf f.attrs, catalogLookup ex = none := by
          obtain ⟨f, hf, nn, hid, hex⟩ := hbad
          rcases List.mem_cons.mp hf with rfl | hf'
          · exact absurd ⟨nn, hid, hex⟩ hg
          · exact ⟨f, hf', nn, hid, hex⟩
        obtain ⟨f, hf, nn, ex, hid, hmem, hnone, heq⟩ :=
          processFields_unknown rest
            (fun f hf => hp f (List.mem_cons_of_mem g hf)) hrest
        refine ⟨f, List.mem_cons_of_mem g hf, nn, ex, hid, hmem, hnone, ?_⟩
        have hgok : ∃ l, processField g = .ok l := by
          cases hgid : g.ident with
          | none =>
              obtain ⟨oid, attrs⟩ := g
              simp only [SynField.ident] at hgid
              subst hgid
              exact ⟨[], rfl⟩
          | some nn' =>
              have hknown : allKnown (extrasOf g.attrs) = true := by
                simp only [allKnown, List.all_eq_true]
                intro ex' hex'
                rcases hopt : catalogLookup ex' with _ | a
                · exact absurd ⟨nn', hgid, ex', hex', hopt⟩ hg
                · rfl
              exact ⟨_, processField_valid g
                (hp g (List.mem_cons_self g rest)) hknown⟩
        obtain ⟨l, hl⟩ := hgok
        simp only [processFields, hl, heq, Except.map]

theorem processFields_query_unique : ∀ (fields : List SynField) (ms : List GenMethod),
    processFields fields = .ok ms →
    (fields.filterMap SynField.ident).Nodup →
    ∀ f ∈ fields, ∀ n, f.ident = some n →
    ms.filter (fun m => m.fieldName == n && m.kind == MethodKind.query) =
      [⟨"query_" ++ n, n, .query⟩]
  | [], _, _, _, f, hf, _, _ => absurd hf (List.not_mem_nil f)
  | g :: rest, ms, h, hnd, f, hf, n, hn => by
      simp only [processFields] at h
      cases hpf : processField g with
      | error e => rw [hpf] at h; cases h
      | ok l =>
          rw [hpf] at h
          cases hrest : processFields rest with
          | error e => rw [hrest] at h; cases h
          | ok tail =>
              rw [hrest] at h
              simp only [Except.map] at h
              cases h
              rw [List.filter_append]
              rcases List.mem_cons.mp hf with rfl | hfr
              · have hnd' : n ∉ rest.filterMap SynField.ident := by
                  simp only [List.filterMap_cons, hn] at hnd
                  exact (List.nodup_cons.mp hnd).1
                have htail : tail.filter
                    (fun m => m.fieldName == n && m.kind == MethodKind.query) = [] := by
                  rw [List.filter_eq_nil_iff]
                  intro m hm
                  have := processFields_fieldName rest tail hrest m hm
                  intro hpred
                  simp only [Bool.and_eq_true, beq_iff_eq] at hpred
                  rw [hpred.1] at this
                  exact hnd' this
                rw [processField_filter_query f l n hpf, if_pos hn, htail]
                simp
              · have hinr : n ∈ rest.filterMap SynField.ident :=
                  List.mem_filterMap.mpr ⟨f, hfr, hn⟩
                have hl : l.filter
                    (fun m => m.fieldName == n && m.kind == MethodKind.query) = [] := by
                  rw [processField_filter_query g l n hpf]
                  rcases hgid : g.ident with _ | nn'
                  · simp
                  · have : nn' ≠ n := by
                      intro heqn
                      subst heqn
                      simp only [List.filterMap_cons, hgid] at hnd
                      exact (List.nodup_cons.mp hnd).1 hinr
                    simp [hgid, this]
                have hndrest : (rest.filterMap SynField.ident).Nodup := by
                  rw [List.filterMap_cons] at hnd
                  rcases hgid2 : g.ident with _ | nn'
                  · simp only [hgid2] at hnd
                    exact hnd
                  · simp only [hgid2] at hnd
                    exact (List.nodup_cons.mp hnd).2
                rw [hl,
                  processFields_query_unique rest tail hrest hndrest f hfr n hn]
                simp

theorem filterMap_catalog_length (g : ActionKind → GenMethod) :
    ∀ es, allKnown es = true →
    (es.filterMap (fun ex => (catalogLookup ex).map g)).length = es.length
  | [], _ => rfl
  | ex :: rest, h => by
      have h' := h
      simp only [allKnown, List.all_cons, Bool.and_eq_true] at h'
      cases hc : catalogLookup ex with
      | none => rw [hc] at h'; simp at h'
      | some a =>
          rw [List.filterMap_cons, hc]
          simp [filterMap_catalog_length g rest (by simpa [allKnown] using h'.2)]

/-- C1 (corrected): for any struct input whose `thirtyfour_actions`
attributes all parse and which has a named field requesting an action name
outside the catalog, generation fails for the entire type with no partial
output, and the single failure message names the offending field and the
offending action (the type name does not appear in the message). -/
theorem unknown_action_aborts_generation (t : String) (fields : List SynField)
    (hp : ∀ f ∈ fields, attrsParseOk f.attrs = true)
    (hbad : ∃ f ∈ fields, ∃ nn, f.ident = some nn ∧
      ∃ ex ∈ extrasOf f.attrs, catalogLookup ex = none) :
    ∃ f ∈ fields, ∃ nn ex, f.ident = some nn ∧ ex ∈ extrasOf f.attrs ∧
      catalogLookup ex = none ∧
      impl_thirtyfour_actions ⟨t, .structData fields⟩ =
        .error (unsupportedMsg ex nn) ∧
      strContains (unsupportedMsg ex nn) nn = true ∧
      strContains (unsupportedMsg ex nn) ex = true := by
  obtain ⟨f, hf, nn, ex, hid, hmem, hnone, heq⟩ :=
    processFields_unknown fields hp hbad
  refine ⟨f, hf, nn, ex, hid, hmem, hnone, ?_, ?_, ?_⟩
  · simp only [impl_thirtyfour_actions, heq, Except.map]
  · exact strContains_suffix _ nn
  · exact (wrapContains _ ex _ nn).1

/-- Witness for C1: the spec's scenario, field `search` requesting
`bogus_action` on type `SearchPage`. -/
theorem unknown_action_aborts_generation_witness :
    (∀ f ∈ [(⟨some "search", [tfaOk ["bogus_action"]]⟩ : SynField)],
        attrsParseOk f.attrs = true) ∧
    (∃ f ∈ [(⟨some "search", [tfaOk ["bogus_action"]]⟩ : SynField)], ∃ nn,
        f.ident = some nn ∧ ∃ ex ∈ extrasOf f.attrs, catalogLookup ex = none) ∧
    (∃ f ∈ [(⟨some "search", [tfaOk ["bogus_action"]]⟩ : SynField)], ∃ nn ex,
        f.ident = some nn ∧ ex ∈ extrasOf f.attrs ∧ catalogLookup ex = none ∧
        impl_thirtyfour_actions
            ⟨"SearchPage", .structData [⟨some "search", [tfaOk ["bogus_action"]]⟩]⟩ =
          .error (unsupportedMsg ex nn) ∧
        strContains (unsupportedMsg ex nn) nn = true ∧
        strContains (unsupportedMsg ex nn) ex = true) :=
  ⟨by decide, ⟨⟨some "search", [tfaOk ["bogus_action"]]⟩, by decide, "search",
      rfl, "bogus_action", by decide, rfl⟩,
    unknown_action_aborts_generation "SearchPage"
      [⟨some "search", [tfaOk ["bogus_action"]]⟩] (by decide)
      ⟨⟨some "search", [tfaOk ["bogus_action"]]⟩, by decide, "search",
        rfl, "bogus_action", by decide, rfl⟩⟩

/-- Counterexample for C1 as stated: on the scenario input the failure
message does not contain the type name `SearchPage`. -/
theorem unknown_action_message_omits_type_name :
    impl_thirtyfour_actions bogusInput =
      .error "Unsupported thirtyfour_actions method: 'bogus_action' for field search" ∧
    strContains
      "Unsupported thirtyfour_actions method: 'bogus_action' for field search"
      "SearchPage" = false :=
  ⟨rfl, by decide⟩

/-- C2 (corrected): for every named field of a successfully processed
struct with distinct field names, the generated method set contains exactly
one base query operation for that field, named `query_<field>` (the base
operation's name prefix is `query_`, not `locate_`), and it is generated
whatever actions the field requests. -/
theorem base_query_method_unique_per_field (t : String) (fields : List SynField)
    (out : Expanded)
    (hok : impl_thirtyfour_actions ⟨t, .structData fields⟩ = .ok out)
    (hnd : (fields.filterMap SynField.ident).Nodup)
    (f : SynField) (hf : f ∈ fields) (n : String) (hn : f.ident = some n) :
    out.methods.filter (fun m => m.fieldName == n && m.kind == MethodKind.query) =
      [⟨"query_" ++ n, n, .query⟩] := by
  simp only [impl_thirtyfour_actions] at hok
  cases hpf : processFields fields with
  | error e => rw [hpf] at hok; cases hok
  | ok ms =>
      rw [hpf] at hok
      simp only [Except.map] at hok
      cases hok
      exact processFields_query_unique fields ms hpf hnd f hf n hn

/-- Witness for C2: the `loginButton` scenario. -/
theorem base_query_method_unique_per_field_witness :
    impl_thirtyfour_actions
        ⟨"LoginPage", .structData [⟨some "loginButton", [tfaOk ["click"]]⟩]⟩ =
      .ok ⟨"LoginPage",
        [⟨"query_loginButton", "loginButton", .query⟩,
         ⟨"click_loginButton", "loginButton", .action .click⟩]⟩ ∧
    ([(⟨some "loginButton", [tfaOk ["click"]]⟩ : SynField)].filterMap
        SynField.ident).Nodup ∧
    (Expanded.methods ⟨"LoginPage",
        [⟨"query_loginButton", "loginButton", .query⟩,
         ⟨"click_loginButton", "loginButton", .action .click⟩]⟩).filter
      (fun m => m.fieldName == "loginButton" && m.kind == MethodKind.query) =
      [⟨"query_" ++ "loginButton", "loginButton", .query⟩] :=
  ⟨by decide, by decide,
    base_query_method_unique_per_field "LoginPage"
      [⟨some "loginButton", [tfaOk ["click"]]⟩]
      ⟨"LoginPage",
        [⟨"query_loginButton", "loginButton", .query⟩,
         ⟨"click_loginButton", "loginButton", .action .click⟩]⟩
      (by decide) (by decide)
      ⟨some "loginButton", [tfaOk ["click"]]⟩ (by decide) "loginButton" rfl⟩

/-- Counterexample for C2 as stated: the `loginButton` field with requested
actions `[click]` generates `query_loginButton` and `click_loginButton`,
and no operation named `locate_loginButton` exists in the output. -/
theorem base_method_named_query_not_locate :
    impl_thirtyfour_actions loginButtonInput =
      .ok ⟨"LoginPage",
        [⟨"query_loginButton", "loginButton", .query⟩,
         ⟨"click_loginButton", "loginButton", .action .click⟩]⟩ ∧
    "locate_loginButton" ∉
      ([⟨"query_loginButton", "loginButton", .query⟩,
        ⟨"click_loginButton", "loginButton", .action .click⟩] :
          List GenMethod).map GenMethod.name :=
  ⟨rfl, by decide⟩

/-- C3 (confirmed): for a struct whose attributes parse and whose requested
actions all lie in the catalog, generation succeeds and the output is the
flattening in field declaration order of, per named field, the base query
operation followed by one operation per requested action in declared order;
each named field contributes exactly (number of requested actions) + 1
methods, and every action method in the output corresponds to an action the
owning field actually requested. -/
theorem generated_set_matches_spec_order (t : String) (fields : List SynField)
    (h : ∀ f ∈ fields,
      attrsParseOk f.attrs = true ∧ allKnown (extrasOf f.attrs) = true) :
    impl_thirtyfour_actions ⟨t, .structData fields⟩ =
      .ok ⟨t, specMethods fields⟩ ∧
    (∀ f ∈ fields, ∀ n, f.ident = some n →
      (specFieldMethods f).length = (extrasOf f.attrs).length + 1) ∧
    (∀ m ∈ specMethods fields, ∀ a, m.kind = .action a →
      ∃ f ∈ fields, f.ident = some m.fieldName ∧
        ∃ ex ∈ extrasOf f.attrs, catalogLookup ex = some a) := by
  refine ⟨?_, ?_, ?_⟩
  · simp only [impl_thirtyfour_actions, processFields_valid fields h, Except.map]
  · intro f hf n hn
    obtain ⟨oid, attrs⟩ := f
    simp only [SynField.ident] at hn
    subst hn
    have hk := (h _ hf).2
    simp only [SynField.attrs] at hk
    simp only [specFieldMethods, List.length_cons, SynField.attrs,
      filterMap_catalog_length _ _ hk]
  · intro m hm a hk
    obtain ⟨lst, hlst, hmem⟩ := List.mem_flatten.mp hm
    obtain ⟨f, hf, rfl⟩ := List.mem_map.mp hlst
    rcases hfid : f.ident with _ | n
    · obtain ⟨oid, attrs⟩ := f
      simp only [SynField.ident] at hfid
      subst hfid
      simp [specFieldMethods] at hmem
    · obtain ⟨oid, attrs⟩ := f
      simp only [SynField.ident] at hfid
      subst hfid
      simp only [specFieldMethods] at hmem
      rcases List.mem_cons.mp hmem with rfl | hmem'
      · cases hk
      · obtain ⟨ex, hex, hsome⟩ := List.mem_filterMap.mp hmem'
        cases hcl : catalogLookup ex with
        | none => rw [hcl] at hsome; cases hsome
        | some a' =>
            rw [hcl] at hsome
            simp at hsome
            subst hsome
            simp only [MethodKind.action.injEq] at hk
            subst hk
            exact ⟨⟨some n, attrs⟩, hf, rfl, ex, hex, hcl⟩

/-- Witness for C3: the spec's `email` scenario, requesting
`[click, enter_keys]`. -/
theorem generated_set_matches_spec_order_witness :
    (∀ f ∈ [(⟨some "email", [tfaOk ["click", "enter_keys"]]⟩ : SynField)],
        attrsParseOk f.attrs = true ∧ allKnown (extrasOf f.attrs) = true) ∧
    impl_thirtyfour_actions
        ⟨"LoginForm", .structData [⟨some "email", [tfaOk ["click", "enter_keys"]]⟩]⟩ =
      .ok ⟨"LoginForm",
        specMethods [⟨some "email", [tfaOk ["click", "enter_keys"]]⟩]⟩ :=
  ⟨by decide,
    (generated_set_matches_spec_order "LoginForm"
      [⟨some "email", [tfaOk ["click", "enter_keys"]]⟩] (by decide)).1⟩

/-- C4 (confirmed): every generated action method that delegates to the
base query converts an absent query result into the failure
`Element <field> not found` (a message containing `<field> not found`),
and when the underlying driver call is rejected it produces a failure
message that contains both the field name and the underlying error. -/
theorem delegating_actions_absent_and_wrap (a : ActionKind)
    (hdeleg : delegatesToQuery a = true) (n : String) (loc : Locator)
    (args : CallArgs) (d : Driver) (el : Element) (e : String) :
    strContains (notFoundMsg n) (n ++ " not found") = true ∧
    (query_method loc d = none →
      runAction a n loc args d = .failure (notFoundMsg n)) ∧
    (∃ msg, runAction a n loc args (allFailDriver el e) = .failure msg ∧
      strContains msg n = true ∧ strContains msg e = true) := by
  refine ⟨notFound_names_field n, ?_⟩
  cases a <;>
    first
      | exact absurd hdeleg (by decide)
      | exact ⟨fun hq => by simp [runAction, hq],
          _, rfl, (wrapContains _ _ _ _).1, (wrapContains _ _ _ _).2⟩

/-- Witness for C4: `click` on `loginButton` against a driver where the
element is absent. -/
theorem delegating_actions_absent_and_wrap_witness :
    delegatesToQuery .click = true ∧
    query_method "loc" absentDriver = none ∧
    runAction .click "loginButton" "loc" sampleArgs absentDriver =
      .failure (notFoundMsg "loginButton") :=
  ⟨by decide, rfl,
    (delegating_actions_absent_and_wrap .click (by decide) "loginButton" "loc"
      sampleArgs absentDriver sampleElement "boom").2.1 rfl⟩

/-- C5 (corrected): enums and unions are rejected with the fixed message
`ImplThirtyfourActions can only be derived for structs`, which is
independent of the type name (so it does not name the type); a struct
whose fields are all unnamed/positional is not rejected: it generates an
empty method set. -/
theorem non_struct_rejected_fixed_message :
    (∀ t, impl_thirtyfour_actions ⟨t, .enumData⟩ =
        .error "ImplThirtyfourActions can only be derived for structs") ∧
    (∀ t, impl_thirtyfour_actions ⟨t, .unionData⟩ =
        .error "ImplThirtyfourActions can only be derived for structs") ∧
    (∀ t u, impl_thirtyfour_actions ⟨t, .enumData⟩ =
        impl_thirtyfour_actions ⟨u, .enumData⟩) ∧
    (∀ t fields, (∀ f ∈ fields, f.ident = none) →
      impl_thirtyfour_actions ⟨t, .structData fields⟩ = .ok ⟨t, []⟩) := by
  refine ⟨fun t => rfl, fun t => rfl, fun t u => rfl, fun t fields h => ?_⟩
  simp only [impl_thirtyfour_actions, processFields_unnamed fields h, Except.map]

/-- Witness for C5: a one-positional-field struct generates an empty
method set rather than failing. -/
theorem non_struct_rejected_fixed_message_witness :
    (∀ f ∈ [(⟨none, []⟩ : SynField)], f.ident = none) ∧
    impl_thirtyfour_actions ⟨"Wrapper", .structData [⟨none, []⟩]⟩ =
      .ok ⟨"Wrapper", []⟩ :=
  ⟨by decide,
    non_struct_rejected_fixed_message.2.2.2 "Wrapper" [⟨none, []⟩] (by decide)⟩

/-- Counterexample for C5 as stated: the tuple struct `Wrapper` (one
unnamed field) is NOT rejected — generation succeeds with no methods — and
the enum rejection message does not contain the type name `MyEnum`. -/
theorem unnamed_fields_not_rejected :
    impl_thirtyfour_actions tupleStructInput = .ok ⟨"Wrapper", []⟩ ∧
    impl_thirtyfour_actions enumInput =
      .error "ImplThirtyfourActions can only be derived for structs" ∧
    strContains "ImplThirtyfourActions can only be derived for structs"
      "MyEnum" = false :=
  ⟨rfl, rfl, by decide⟩

/-- C6 (confirmed): the base query method returns the element handle on
`Ok(Some(_))`, an absent result on `Ok(None)`, and treats an underlying
query error as absent rather than failing. -/
theorem query_method_absorbs_errors (loc : Locator) (d : Driver) :
    (∀ el, d.query loc = .ok (some el) → query_method loc d = some el) ∧
    (d.query loc = .ok none → query_method loc d = none) ∧
    (∀ e, d.query loc = .error e → query_method loc d = none) := by
  refine ⟨fun el h => ?_, fun h => ?_, fun e h => ?_⟩ <;> simp [query_method, h]

/-- Witness for C6: a driver whose query errors still yields an absent
result. -/
theorem query_method_absorbs_errors_witness :
    (queryErrDriver "boom").query "loc" = .error "boom" ∧
    query_method "loc" (queryErrDriver "boom") = none :=
  ⟨rfl, (query_method_absorbs_errors "loc" (queryErrDriver "boom")).2.2 "boom" rfl⟩

/-- C7 (confirmed): the generated `exists` method always returns a
boolean — it never fails — returning `false` both when the underlying
exists-query reports absence and when the underlying query errors. -/
theorem exists_method_never_fails (n : String) (loc : Locator) (args : CallArgs)
    (d : Driver) :
    (∃ b, runAction .exists n loc args d = .boolOk b) ∧
    (d.existsQuery loc = .ok false → runAction .exists n loc args d = .boolOk false) ∧
    (∀ e, d.existsQuery loc = .error e →
      runAction .exists n loc args d = .boolOk false) := by
  refine ⟨?_, fun h => by simp [runAction, h], fun e h => by simp [runAction, h]⟩
  cases h : d.existsQuery loc with
  | ok b => exact ⟨b, by simp [runAction, h]⟩
  | error e => exact ⟨false, by simp [runAction, h]⟩

/-- Witness for C7: the `banner` scenario with an erroring driver. -/
theorem exists_method_never_fails_witness :
    (queryErrDriver "boom").existsQuery "loc" = .error "boom" ∧
    runAction .exists "banner" "loc" sampleArgs (queryErrDriver "boom") =
      .boolOk false :=
  ⟨rfl, (exists_method_never_fails "banner" "loc" sampleArgs
      (queryErrDriver "boom")).2.2 "boom" rfl⟩

/-- C8 (corrected): duplicate entries in a field's requested-action list
are not rejected — generation still succeeds — but each occurrence emits
its own method definition: a field requesting `k` action names (duplicates
included) gets `k + 1` generated methods, so requesting an action twice
does NOT collapse idempotently to the once-requested output. -/
theorem duplicates_not_rejected_each_emits (n : String) (es : List String)
    (h : allKnown es = true) :
    ∃ ms, processField ⟨some n, [tfaOk es]⟩ = .ok ms ∧
      ms.length = es.length + 1 := by
  have hp : attrsParseOk [tfaOk es] = true := rfl
  have hk : allKnown (extrasOf [tfaOk es]) = true := by
    simpa [extrasOf, tfaOk] using h
  refine ⟨_, processField_valid _ hp hk, ?_⟩
  simp only [specFieldMethods, SynField.attrs, extrasOf, List.append_nil,
    List.length_cons, List.length_append, List.length_nil, tfaOk]
  rw [filterMap_catalog_length _ es h]

/-- Witness for C8: `click` requested twice yields three methods. -/
theorem duplicates_not_rejected_each_emits_witness :
    allKnown ["click", "click"] = true ∧
    ∃ ms, processField ⟨some "btn", [tfaOk ["click", "click"]]⟩ = .ok ms ∧
      ms.length = 3 :=
  ⟨by decide, duplicates_not_rejected_each_emits "btn" ["click", "click"] (by decide)⟩

/-- Counterexample for C8 as stated: requesting `click` twice produces a
method list with `click_btn` twice, which differs from the once-requested
output — the regeneration is not idempotent. -/
theorem duplicate_request_duplicates_method :
    impl_thirtyfour_actions twiceInput =
      .ok ⟨"Page", [⟨"query_btn", "btn", .query⟩,
        ⟨"click_btn", "btn", .action .click⟩,
        ⟨"click_btn", "btn", .action .click⟩]⟩ ∧
    impl_thirtyfour_actions onceInput =
      .ok ⟨"Page", [⟨"query_btn", "btn", .query⟩,
        ⟨"click_btn", "btn", .action .click⟩]⟩ ∧
    impl_thirtyfour_actions twiceInput ≠ impl_thirtyfour_actions onceInput :=
  ⟨rfl, rfl, by decide⟩

/-- C9 (confirmed): generation is deterministic — it is a pure function of
the input type description, so identical inputs give identical outputs and
identical rendered output text. -/
theorem generation_deterministic (d₁ d₂ : DeriveInput) (h : d₁ = d₂) :
    impl_thirtyfour_actions d₁ = impl_thirtyfour_actions d₂ ∧
    renderOutput (impl_thirtyfour_actions d₁) =
      renderOutput (impl_thirtyfour_actions d₂) := by
  subst h
  exact ⟨rfl, rfl⟩

/-- Witness for C9: the scenario input compared with itself. -/
theorem generation_deterministic_witness :
    loginButtonInput = loginButtonInput ∧
    (impl_thirtyfour_actions loginButtonInput =
        impl_thirtyfour_actions loginButtonInput ∧
      renderOutput (impl_thirtyfour_actions loginButtonInput) =
        renderOutput (impl_thirtyfour_actions loginButtonInput)) :=
  ⟨rfl, generation_deterministic loginButtonInput loginButtonInput rfl⟩

/-- C10 (confirmed): several `thirtyfour_actions` attributes on one field
are concatenated in attribute declaration order — processing a field with
any attribute list is the same as processing it with the single attribute
carrying the concatenated action list; in particular two attributes
carrying `l₁` and `l₂` behave as one carrying `l₁ ++ l₂`. -/
theorem multiple_attributes_concatenate (n : String) (attrs : List FieldAttr)
    (h : attrsParseOk attrs = true) :
    processField ⟨some n, attrs⟩ =
      processField ⟨some n, [tfaOk (extrasOf attrs)]⟩ ∧
    (∀ l₁ l₂ : List String,
      processField ⟨some n, [tfaOk l₁, tfaOk l₂]⟩ =
        processField ⟨some n, [tfaOk (l₁ ++ l₂)]⟩) := by
  constructor
  · simp only [processField, collectExtras_ok attrs h, tfaOk, collectExtras,
      Except.map, List.append_nil]
  · intro l₁ l₂
    simp only [processField, tfaOk, collectExtras, Except.map, List.append_nil,
      List.append_assoc]

/-- Witness for C10: two attributes `[click]` and `[clear]` behave as one
attribute `[click, clear]`. -/
theorem multiple_attributes_concatenate_witness :
    attrsParseOk [tfaOk ["click"], tfaOk ["clear"]] = true ∧
    processField ⟨some "input", [tfaOk ["click"], tfaOk ["clear"]]⟩ =
      processField ⟨some "input",
        [tfaOk (extrasOf [tfaOk ["click"], tfaOk ["clear"]])]⟩ :=
  ⟨by decide,
    (multiple_attributes_concatenate "input"
      [tfaOk ["click"], tfaOk ["clear"]] (by decide)).1⟩

end ThirtyfourActions
